import Mathlib

/-!
Shallow embedding of the small applications in this repository, and proofs of
the specified properties.

* `SberTest` embeds the bank-loan demo (`sber_test/main.py`): the annuity
  payment formula, the payment-schedule generator, and payment settlement.
* `GeoApp` embeds the filter-query construction of the complex geodata
  variant (`geolocation_app_complex_version/main_new.py`).
* `PartnerApp` embeds the change-history recording of the partner tool
  (`partner_app/partner_app.py`).
* `Calc` embeds the calculation-history buffer of the enhanced calculator
  (`enhanced_calculator.py`).

Real-valued arithmetic of the Python source is modelled over `ℚ`; Python
`round(x, 2)` is modelled as rounding `100*x` to the nearest integer and
dividing back by `100`.
-/

namespace SberTest

/-- Python `round(x, 2)`: round to two decimal places. -/
def round2 (x : ℚ) : ℚ := (round (100 * x) : ℤ) / 100

/-- The local `monthly_rate = annual_rate_percent / 100 / 12` of `calculate_annuity_payment`. -/
def monthlyRate (annual_rate_percent : ℚ) : ℚ := annual_rate_percent / 100 / 12

/-- The unrounded annuity formula from the positive-rate branch:
`amount * (monthly_rate * (1 + monthly_rate) ** term) / ((1 + monthly_rate) ** term - 1)`. -/
def annuityExact (amount r : ℚ) (n : ℕ) : ℚ :=
  amount * (r * (1 + r) ^ n) / ((1 + r) ^ n - 1)

/-- The function `calculate_annuity_payment` from `sber_test/main.py`. -/
def calculate_annuity_payment (amount annual_rate_percent : ℚ) (term_months : ℕ) : ℚ :=
  let monthly_rate := monthlyRate annual_rate_percent
  if monthly_rate = 0 then
    round2 (amount / term_months)
  else
    round2 (amount * (monthly_rate * (1 + monthly_rate) ^ term_months) /
      ((1 + monthly_rate) ^ term_months - 1))

/-- Outstanding balance after `n` monthly steps: each step compounds the balance
at rate `r` and then subtracts one payment `p`. -/
def balance (amount r p : ℚ) : ℕ → ℚ
  | 0 => amount
  | k + 1 => balance amount r p k * (1 + r) - p

/-- Evaluate `round2` from a bracketing of `100 * x + 1/2`. -/
lemma round2_eq_of_bounds (x : ℚ) (z : ℤ) (h1 : (z : ℚ) ≤ 100 * x + 1 / 2)
    (h2 : 100 * x + 1 / 2 < z + 1) : round2 x = z / 100 := by
  unfold round2
  rw [round_eq, Int.floor_eq_iff.mpr ⟨h1, h2⟩]

/-- Closed form of the balance recursion: after `n` steps the outstanding
balance is `A * (1+r)^n - p * ((1+r)^n - 1) / r` (for a nonzero rate `r`). -/
lemma balance_closed_form (A r p : ℚ) (hr : r ≠ 0) (n : ℕ) :
    balance A r p n = A * (1 + r) ^ n - p * (((1 + r) ^ n - 1) / r) := by
  induction n with
  | zero => simp [balance]
  | succ k ih =>
    rw [balance, ih, pow_succ]
    field_simp
    ring

/-- For a positive monthly rate, `(1 + r)^n` exceeds `1` for a positive term. -/
lemma one_lt_one_add_rate_pow (r : ℚ) (hr : 0 < r) (n : ℕ) (hn : 0 < n) :
    1 < (1 + r) ^ n := by
  have h1 : (1 : ℚ) < 1 + r := by linarith
  calc (1 : ℚ) = 1 ^ n := (one_pow n).symm
    _ < (1 + r) ^ n := by
        exact pow_lt_pow_left₀ h1 (by norm_num) (Nat.pos_iff_ne_zero.mp hn)

/-- With the exact (unrounded) annuity payment, `n` compounding steps bring the
balance to exactly zero. -/
lemma balance_annuityExact_eq_zero (A r : ℚ) (hr : 0 < r) (n : ℕ) (hn : 0 < n) :
    balance A r (annuityExact A r n) n = 0 := by
  have hpow : 1 < (1 + r) ^ n := one_lt_one_add_rate_pow r hr n hn
  have hden : (1 + r) ^ n - 1 ≠ 0 := by linarith
  rw [balance_closed_form A r _ (ne_of_gt hr) n, annuityExact]
  field_simp
  ring

/-- A row of the `loans` table. `interestRate` is stored as a fraction (the
code divides the entered percentage by 100 on insert); `startDate` is the
parsed start date, modelled as a day ordinal. -/
structure Loan where
  id : ℕ
  amount : ℚ
  interestRate : ℚ
  termMonths : ℕ
  startDate : ℤ
  status : String
deriving DecidableEq, Repr

/-- A row of the `payments` table. `dueDate` is a day ordinal. -/
structure PaymentEntry where
  id : ℕ
  loanId : ℕ
  paymentNumber : ℕ
  dueDate : ℤ
  amount : ℚ
  paid : Bool
deriving DecidableEq, Repr

/-- The rows inserted by the loop of `generate_payment_schedule`: for
`n = 1 .. term_months`, a row numbered `n`, due `30 * n` days after the loan
start, for the computed annuity payment, initially unpaid. `nextId` models the
autoincrement ids the database assigns. -/
def scheduleEntries (loan : Loan) (nextId : ℕ) : List PaymentEntry :=
  let payment_amount :=
    calculate_annuity_payment loan.amount (loan.interestRate * 100) loan.termMonths
  (List.range loan.termMonths).map fun k =>
    { id := nextId + k
      loanId := loan.id
      paymentNumber := k + 1
      dueDate := loan.startDate + 30 * ((k : ℤ) + 1)
      amount := payment_amount
      paid := false }

/-- The function `generate_payment_schedule`: deletes every payment row of the loan and
then inserts the freshly generated schedule. -/
def generate_payment_schedule (loan : Loan) (nextId : ℕ)
    (payments : List PaymentEntry) : List PaymentEntry :=
  payments.filter (fun p => p.loanId ≠ loan.id) ++ scheduleEntries loan nextId

/-- The joint state of the `loans` and `payments` tables. -/
structure BankState where
  loans : List Loan
  payments : List PaymentEntry
deriving DecidableEq, Repr

/-- The terminal loan status written by `pay_payment`. -/
def repaidStatus : String := "Погашен"

/-- The function `pay_payment`: mark the row with id `pid` paid, look up its loan id (the
scalar subquery), count the remaining unpaid rows of that loan, and close the
loan when none remain. -/
def pay_payment (pid : ℕ) (s : BankState) : BankState :=
  let pays := s.payments.map fun p => if p.id = pid then { p with paid := true } else p
  match pays.find? (fun p => p.id = pid) with
  | none => { s with payments := pays }
  | some q =>
    let remaining_unpaid := (pays.filter fun p => p.loanId = q.loanId ∧ p.paid = false).length
    if remaining_unpaid = 0 then
      { loans := s.loans.map fun l =>
          if l.id = q.loanId then { l with status := repaidStatus } else l
        payments := pays }
    else
      { s with payments := pays }

end SberTest

namespace GeoApp

/-- The query string `query_str` built by `main` of the complex geodata
variant from the raw filter argument; the string handed to `query_db`. -/
def query_str (filterArg : String) : String :=
  "SELECT * FROM geolocations WHERE " ++ filterArg

end GeoApp

namespace PartnerApp

/-- The fields of a `Partner` record that `update_partner_with_history`
tracks. `totalSales` is numeric in the record and stringified (`str(...)`)
when compared and stored. -/
structure Partner where
  id : ℕ
  name : String
  email : String
  phone : String
  company : String
  totalSales : ℚ
  status : String
  category : String
deriving DecidableEq, Repr

/-- A row of the `change_history` table (the change date is the insertion
timestamp, passed in as a parameter here). -/
structure ChangeRow where
  partnerId : ℕ
  fieldName : String
  oldValue : String
  newValue : String
  changeDate : String
  user : String
deriving DecidableEq, Repr

/-- The `changes` list built by `update_partner_with_history`:
`(field, old value, new value)` for every tracked field. -/
def changesList (old new : Partner) : List (String × String × String) :=
  [("name", old.name, new.name),
   ("email", old.email, new.email),
   ("phone", old.phone, new.phone),
   ("company", old.company, new.company),
   ("total_sales", toString old.totalSales, toString new.totalSales),
   ("status", old.status, new.status),
   ("category", old.category, new.category)]

/-- The `change_history` rows inserted by `update_partner_with_history`: one
row per tracked field whose old and new values differ. -/
def update_partner_with_history (old new : Partner) (changeDate user : String) :
    List ChangeRow :=
  ((changesList old new).filter fun c => c.2.1 ≠ c.2.2).map fun c =>
    { partnerId := new.id
      fieldName := c.1
      oldValue := c.2.1
      newValue := c.2.2
      changeDate := changeDate
      user := user }

end PartnerApp

namespace Calc

/-- One entry of the calculator history list. -/
structure HistoryEntry where
  timestamp : String
  expression : String
  result : String
  opType : String
deriving DecidableEq, Repr

/-- The method `add_to_history`: append the new entry; if the list then holds more than
100 entries, keep only the last 100 (`history[-100:]`). -/
def add_to_history (history : List HistoryEntry) (entry : HistoryEntry) :
    List HistoryEntry :=
  let h := history ++ [entry]
  if h.length > 100 then h.drop (h.length - 100) else h

end Calc

/-! ## Theorems about the claims -/

open SberTest GeoApp PartnerApp Calc

/-- Shared evaluation: the zero-rate payment for principal 100 over 3 months. -/
lemma payment_100_0_3 : calculate_annuity_payment 100 0 3 = 3333 / 100 := by
  have h : monthlyRate 0 = 0 := by norm_num [monthlyRate]
  simp only [calculate_annuity_payment, h, if_pos]
  rw [round2_eq_of_bounds (100 / (3 : ℕ)) 3333 (by norm_num) (by norm_num)]
  norm_num

/-- Shared evaluation: the payment for principal 120000 at 12 % over 12 months. -/
lemma payment_120000_12_12 : calculate_annuity_payment 120000 12 12 = 1066185 / 100 := by
  have h : monthlyRate 12 = 1 / 100 := by norm_num [monthlyRate]
  simp only [calculate_annuity_payment, h]
  rw [if_neg (by norm_num)]
  rw [round2_eq_of_bounds _ 1066185 (by norm_num) (by norm_num)]
  norm_num

/-- C1: for positive principal, rate and term, `calculate_annuity_payment`
returns the standard annuity formula
`amount * (r * (1+r)^n) / ((1+r)^n - 1)` (with `r = rate/100/12`) rounded to
two decimals, and `n` payments of the (unrounded) formula amount, with the
balance compounded monthly at `r`, reduce the balance to exactly zero. -/
theorem annuity_payment_amortizes (amount rate : ℚ) (n : ℕ)
    (hA : 0 < amount) (hr : 0 < rate) (hn : 0 < n) :
    calculate_annuity_payment amount rate n
      = round2 (annuityExact amount (monthlyRate rate) n) ∧
    balance amount (monthlyRate rate)
      (annuityExact amount (monthlyRate rate) n) n = 0 := by
  have hmr : 0 < monthlyRate rate := by
    unfold monthlyRate; positivity
  constructor
  · simp only [calculate_annuity_payment]
    rw [if_neg (ne_of_gt hmr)]
    rfl
  · exact balance_annuityExact_eq_zero amount _ hmr n hn

/-- C1 witness at principal 120000, rate 12 %, term 12 months. -/
theorem annuity_payment_amortizes_witness :
    calculate_annuity_payment 120000 12 12
      = round2 (annuityExact 120000 (monthlyRate 12) 12) ∧
    balance 120000 (monthlyRate 12)
      (annuityExact 120000 (monthlyRate 12) 12) 12 = 0 :=
  annuity_payment_amortizes 120000 12 12 (by norm_num) (by norm_num) (by norm_num)

/-- C4 counterexample: at rate 0 the code returns the payment rounded to two
decimals, so for principal 100 over 3 months the result (33.33) is not exactly
`100 / 3`. -/
theorem zero_rate_payment_not_exact_division :
    calculate_annuity_payment 100 0 3 ≠ 100 / 3 := by
  rw [payment_100_0_3]
  norm_num

/-- C4 amended: for positive principal and term, the zero-rate payment equals
`principal / term_months` rounded to two decimal places. -/
theorem zero_rate_payment_eq_rounded_division (amount : ℚ) (n : ℕ)
    (hA : 0 < amount) (hn : 0 < n) :
    calculate_annuity_payment amount 0 n = round2 (amount / n) := by
  have h : monthlyRate 0 = 0 := by norm_num [monthlyRate]
  simp only [calculate_annuity_payment, h, if_pos]

/-- C4 amended witness at principal 100, term 3. -/
theorem zero_rate_payment_eq_rounded_division_witness :
    calculate_annuity_payment 100 0 3 = round2 (100 / (3 : ℕ)) :=
  zero_rate_payment_eq_rounded_division 100 3 (by norm_num) (by norm_num)

/-- C5 counterexample: for principal 120000, rate 12 %, term 12, the function
returns 10661.85, not 10661.99. -/
theorem example_payment_not_10661_99 :
    calculate_annuity_payment 120000 12 12 ≠ 1066199 / 100 := by
  rw [payment_120000_12_12]
  norm_num

/-- C5 amended: for principal 120000, rate 12 %, term 12 months, the monthly
rate used is 1 % and the returned payment is 10661.85. -/
theorem example_payment_value :
    monthlyRate 12 = 1 / 100 ∧
    calculate_annuity_payment 120000 12 12 = 1066185 / 100 :=
  ⟨by norm_num [monthlyRate], payment_120000_12_12⟩

/-- C6: evidence for the failing input of the division-by-zero bug. At annual
rate `10⁻¹⁴` the zero-rate guard of `calculate_annuity_payment` does not fire
(the monthly rate is nonzero), yet the monthly rate lies strictly below
`2⁻⁵³`, the half-ulp of `1.0` in IEEE binary64: in the float program
`1.0 + monthly_rate` therefore rounds to exactly `1.0`, the denominator
`(1 + monthly_rate) ** term_months - 1` evaluates to `0.0`, and the division
raises `ZeroDivisionError`, so the function does not return a payment at all.
The exact-arithmetic model cannot reproduce the error itself; this theorem
pins the two facts about the failing input that produce it. -/
theorem tiny_rate_guard_below_half_ulp :
    monthlyRate (1 / 10 ^ 14) ≠ 0 ∧
    monthlyRate (1 / 10 ^ 14) < 1 / 2 ^ 53 := by
  constructor
  · norm_num [monthlyRate]
  · norm_num [monthlyRate]

/-- Every generated schedule row carries the id of the loan it was built for. -/
lemma scheduleEntries_loanId (loan : Loan) (nextId : ℕ) :
    ∀ p ∈ scheduleEntries loan nextId, p.loanId = loan.id := by
  intro p hp
  simp only [scheduleEntries, List.mem_map] at hp
  obtain ⟨k, -, rfl⟩ := hp
  rfl

/-- C2: the generated schedule has exactly `term_months` entries; the `i`-th
entry carries payment number `i + 1`, is due `30 * (i+1)` days after the loan
start date, carries the computed annuity payment, and starts unpaid; and the
due dates are strictly increasing. -/
theorem schedule_entries_spec (loan : Loan) (nextId : ℕ)
    (hterm : 0 < loan.termMonths) :
    (scheduleEntries loan nextId).length = loan.termMonths ∧
    (∀ i (hi : i < (scheduleEntries loan nextId).length),
      ((scheduleEntries loan nextId)[i]).paymentNumber = i + 1 ∧
      ((scheduleEntries loan nextId)[i]).dueDate
        = loan.startDate + 30 * ((i : ℤ) + 1) ∧
      ((scheduleEntries loan nextId)[i]).amount
        = calculate_annuity_payment loan.amount (loan.interestRate * 100)
            loan.termMonths ∧
      ((scheduleEntries loan nextId)[i]).paid = false) ∧
    (scheduleEntries loan nextId).Pairwise (fun a b => a.dueDate < b.dueDate) := by
  refine ⟨?_, ?_, ?_⟩
  · simp [scheduleEntries]
  · intro i hi
    simp only [scheduleEntries, List.getElem_map, List.getElem_range]
    refine ⟨?_, ?_, ?_, ?_⟩ <;> first | rfl | trivial
  · simp only [scheduleEntries, List.pairwise_map]
    refine (List.pairwise_lt_range loan.termMonths).imp ?_
    intro a b hab
    show loan.startDate + 30 * ((a : ℤ) + 1) < loan.startDate + 30 * ((b : ℤ) + 1)
    omega

/-- C2 witness: a loan over 2 months starting at day 0. -/
theorem schedule_entries_spec_witness :
    (scheduleEntries ⟨1, 100, 0, 2, 0, "Открыт"⟩ 1).length = 2 ∧
    ((scheduleEntries ⟨1, 100, 0, 2, 0, "Открыт"⟩ 1).get
        ⟨0, by simp [scheduleEntries]⟩).paymentNumber = 1 ∧
    (scheduleEntries ⟨1, 100, 0, 2, 0, "Открыт"⟩ 1).Pairwise
      (fun a b => a.dueDate < b.dueDate) := by
  have h := schedule_entries_spec ⟨1, 100, 0, 2, 0, "Открыт"⟩ 1 (by norm_num)
  exact ⟨h.1, (h.2.1 0 (by simp [scheduleEntries])).1, h.2.2⟩

/-- C7: after `generate_payment_schedule`, the payment rows of the target loan
are exactly the freshly generated schedule, and the rows of every other loan
are unchanged. -/
theorem generate_payment_schedule_frame (loan : Loan) (nextId : ℕ)
    (payments : List PaymentEntry) :
    ((generate_payment_schedule loan nextId payments).filter
        (fun p => p.loanId = loan.id)) = scheduleEntries loan nextId ∧
    (∀ j : ℕ, j ≠ loan.id →
      ((generate_payment_schedule loan nextId payments).filter
          (fun p => p.loanId = j))
        = payments.filter (fun p => p.loanId = j)) := by
  constructor
  · rw [generate_payment_schedule, List.filter_append]
    have h1 : (payments.filter (fun p => p.loanId ≠ loan.id)).filter
        (fun p => p.loanId = loan.id) = [] := by
      rw [List.filter_eq_nil_iff]
      intro p hp
      simp only [List.mem_filter, decide_eq_true_eq] at hp ⊢
      exact hp.2
    have h2 : (scheduleEntries loan nextId).filter
        (fun p => p.loanId = loan.id) = scheduleEntries loan nextId := by
      rw [List.filter_eq_self]
      intro p hp
      simpa using scheduleEntries_loanId loan nextId p hp
    rw [h1, h2, List.nil_append]
  · intro j hj
    rw [generate_payment_schedule, List.filter_append]
    have h1 : (scheduleEntries loan nextId).filter (fun p => p.loanId = j) = [] := by
      rw [List.filter_eq_nil_iff]
      intro p hp
      have := scheduleEntries_loanId loan nextId p hp
      simp only [decide_eq_true_eq]
      omega
    have h2 : (payments.filter (fun p => p.loanId ≠ loan.id)).filter
        (fun p => p.loanId = j) = payments.filter (fun p => p.loanId = j) := by
      rw [List.filter_filter]
      refine List.filter_congr ?_
      intro p hp
      by_cases h : p.loanId = j
      · simp [h, hj]
      · simp [h]
    rw [h1, h2, List.append_nil]

/-- C7 witness: regenerating the schedule of loan 1 leaves the rows of loan 2 intact. -/
theorem generate_payment_schedule_frame_witness :
    ((generate_payment_schedule ⟨1, 100, 0, 2, 0, "Открыт"⟩ 3
        [⟨1, 2, 1, 30, 50, false⟩]).filter
      (fun p => p.loanId = 1)) = scheduleEntries ⟨1, 100, 0, 2, 0, "Открыт"⟩ 3 ∧
    ((generate_payment_schedule ⟨1, 100, 0, 2, 0, "Открыт"⟩ 3
        [⟨1, 2, 1, 30, 50, false⟩]).filter (fun p => p.loanId = 2))
      = [⟨1, 2, 1, 30, 50, false⟩].filter (fun p => p.loanId = 2) := by
  have h := generate_payment_schedule_frame ⟨1, 100, 0, 2, 0, "Открыт"⟩ 3
    [⟨1, 2, 1, 30, 50, false⟩]
  exact ⟨h.1, h.2 2 (by norm_num)⟩

/-- When the ids of a payment list are pairwise distinct, `find?` on an id
held by a member returns exactly that member. -/
lemma find_eq_of_nodup_ids (l : List PaymentEntry)
    (h : (l.map PaymentEntry.id).Nodup) (p : PaymentEntry) (hp : p ∈ l)
    (pid : ℕ) (hid : p.id = pid) :
    l.find? (fun q => q.id = pid) = some p := by
  induction l with
  | nil => cases hp
  | cons b t ih =>
    simp only [List.map_cons, List.nodup_cons] at h
    rcases List.mem_cons.mp hp with rfl | hpt
    · exact List.find?_cons_of_pos _ (by simp [hid])
    · by_cases hb : b.id = pid
      · exfalso
        apply h.1
        rw [hb, ← hid]
        exact List.mem_map_of_mem PaymentEntry.id hpt
      · rw [List.find?_cons_of_neg _ (by simp [hb])]
        exact ih h.2 hpt

/-- Marking a payment row preserves its id. -/
lemma mark_preserves_id (pid : ℕ) (q : PaymentEntry) :
    (if q.id = pid then { q with paid := true } else q).id = q.id := by
  split <;> rfl

/-- C3: `pay_payment` marks the targeted entry paid, and sets the parent
status of the parent loan to the terminal repaid status exactly when no unpaid entries
remain for that loan afterwards, leaving the status unchanged otherwise. -/
theorem pay_payment_spec (s : BankState) (pid : ℕ) (p : PaymentEntry) (l : Loan)
    (hnodup : (s.payments.map PaymentEntry.id).Nodup)
    (hp : p ∈ s.payments) (hpid : p.id = pid)
    (hl : l ∈ s.loans) (hlid : l.id = p.loanId) :
    { p with paid := true } ∈ (pay_payment pid s).payments ∧
    { l with status :=
        if ((pay_payment pid s).payments.filter
            (fun q => q.loanId = p.loanId ∧ q.paid = false)).length = 0
        then repaidStatus else l.status } ∈ (pay_payment pid s).loans := by
  set mark := fun q : PaymentEntry => if q.id = pid then { q with paid := true } else q
    with hmark
  have hmarkp : mark p = { p with paid := true } := by
    simp only [hmark, if_pos hpid]
  have hids : (s.payments.map mark).map PaymentEntry.id
      = s.payments.map PaymentEntry.id := by
    rw [List.map_map]
    exact List.map_congr_left fun q _ => mark_preserves_id pid q
  have hmem : { p with paid := true } ∈ s.payments.map mark := by
    rw [← hmarkp]
    exact List.mem_map_of_mem mark hp
  have hfind : (s.payments.map mark).find? (fun q => q.id = pid)
      = some { p with paid := true } := by
    apply find_eq_of_nodup_ids _ (by rw [hids]; exact hnodup) _ hmem
    rw [← hpid]
  have hpays : (pay_payment pid s).payments = s.payments.map mark := by
    simp only [pay_payment, ← hmark, hfind]
    split <;> rfl
  constructor
  · rw [hpays]
    exact hmem
  · rw [hpays]
    by_cases hrem : ((s.payments.map mark).filter
        (fun q => q.loanId = p.loanId ∧ q.paid = false)).length = 0
    · rw [if_pos hrem]
      have hloans : (pay_payment pid s).loans
          = s.loans.map fun l' =>
              if l'.id = p.loanId then { l' with status := repaidStatus } else l' := by
        simp only [pay_payment, ← hmark, hfind]
        rw [if_pos hrem]
      rw [hloans]
      have : (fun l' : Loan =>
          if l'.id = p.loanId then { l' with status := repaidStatus } else l') l
          = { l with status := repaidStatus } := by
        simp only [if_pos hlid]
      rw [← this]
      exact List.mem_map_of_mem _ hl
    · rw [if_neg hrem]
      have hloans : (pay_payment pid s).loans = s.loans := by
        simp only [pay_payment, ← hmark, hfind]
        rw [if_neg hrem]
      rw [hloans]
      have : { l with status := l.status } = l := rfl
      rw [this]
      exact hl

/-- C3 witness: a loan with two unpaid entries; paying the first leaves one
unpaid entry and the loan status untouched. -/
theorem pay_payment_spec_witness :
    { id := 1, loanId := 1, paymentNumber := 1, dueDate := 30, amount := 50,
        paid := true : PaymentEntry }
      ∈ (pay_payment 1
          ⟨[⟨1, 100, 0, 2, 0, "Открыт"⟩],
           [⟨1, 1, 1, 30, 50, false⟩, ⟨2, 1, 2, 60, 50, false⟩]⟩).payments ∧
    { id := 1, amount := 100, interestRate := 0, termMonths := 2, startDate := 0,
        status :=
          if (((pay_payment 1
              ⟨[⟨1, 100, 0, 2, 0, "Открыт"⟩],
               [⟨1, 1, 1, 30, 50, false⟩, ⟨2, 1, 2, 60, 50, false⟩]⟩).payments.filter
            (fun q => q.loanId = 1 ∧ q.paid = false)).length = 0)
          then repaidStatus else "Открыт" : Loan }
      ∈ (pay_payment 1
          ⟨[⟨1, 100, 0, 2, 0, "Открыт"⟩],
           [⟨1, 1, 1, 30, 50, false⟩, ⟨2, 1, 2, 60, 50, false⟩]⟩).loans :=
  pay_payment_spec
    ⟨[⟨1, 100, 0, 2, 0, "Открыт"⟩],
     [⟨1, 1, 1, 30, 50, false⟩, ⟨2, 1, 2, 60, 50, false⟩]⟩
    1 ⟨1, 1, 1, 30, 50, false⟩ ⟨1, 100, 0, 2, 0, "Открыт"⟩
    (by simp) (by simp) rfl (by simp) rfl

/-- C8: the query built from the `--filter` argument is the plain
concatenation of the fixed `SELECT` text and the raw filter string; in
particular the characters after the 33-character fixed part are exactly the
characters of the filter, unescaped. -/
theorem query_str_is_plain_concat (filterArg : String) :
    query_str filterArg = "SELECT * FROM geolocations WHERE " ++ filterArg ∧
    (query_str filterArg).data
      = "SELECT * FROM geolocations WHERE ".data ++ filterArg.data ∧
    (query_str filterArg).data.drop 33 = filterArg.data := by
  refine ⟨rfl, ?_, ?_⟩
  · rw [query_str, String.data_append]
  · rw [query_str, String.data_append]
    exact List.drop_left' (by decide)

/-- C9: `update_partner_with_history` inserts, per tracked field, exactly one
change row when the (stringified) value changed and none when it is
unchanged, and nothing else. -/
theorem update_history_rows_per_field (old new : Partner) (d u : String) :
    ((update_partner_with_history old new d u).countP
        (fun r => r.fieldName = "name") = if old.name = new.name then 0 else 1) ∧
    ((update_partner_with_history old new d u).countP
        (fun r => r.fieldName = "email") = if old.email = new.email then 0 else 1) ∧
    ((update_partner_with_history old new d u).countP
        (fun r => r.fieldName = "phone") = if old.phone = new.phone then 0 else 1) ∧
    ((update_partner_with_history old new d u).countP
        (fun r => r.fieldName = "company")
      = if old.company = new.company then 0 else 1) ∧
    ((update_partner_with_history old new d u).countP
        (fun r => r.fieldName = "total_sales")
      = if toString old.totalSales = toString new.totalSales then 0 else 1) ∧
    ((update_partner_with_history old new d u).countP
        (fun r => r.fieldName = "status")
      = if old.status = new.status then 0 else 1) ∧
    ((update_partner_with_history old new d u).countP
        (fun r => r.fieldName = "category")
      = if old.category = new.category then 0 else 1) ∧
    (update_partner_with_history old new d u).length
      = (if old.name = new.name then 0 else 1)
        + (if old.email = new.email then 0 else 1)
        + (if old.phone = new.phone then 0 else 1)
        + (if old.company = new.company then 0 else 1)
        + (if toString old.totalSales = toString new.totalSales then 0 else 1)
        + (if old.status = new.status then 0 else 1)
        + (if old.category = new.category then 0 else 1) := by
  refine ⟨?_, ?_, ?_, ?_, ?_, ?_, ?_, ?_⟩ <;>
    simp [update_partner_with_history, changesList, List.countP_map,
      List.countP_filter, List.countP_cons, ← List.countP_eq_length_filter,
      Function.comp, ite_not] <;>
    omega

/-- C10: after `add_to_history` the history always holds at most 100 entries,
its length is `min (old length + 1) 100`, and the kept entries are exactly
the most recent ones: the result is the suffix of old history plus the new
entry obtained by dropping the oldest surplus entries. -/
theorem add_to_history_bound (history : List HistoryEntry) (entry : HistoryEntry) :
    (add_to_history history entry).length ≤ 100 ∧
    (add_to_history history entry).length = min (history.length + 1) 100 ∧
    add_to_history history entry
      = (history ++ [entry]).drop (history.length + 1 - 100) := by
  simp only [add_to_history]
  have hlen : (history ++ [entry]).length = history.length + 1 := by simp
  by_cases hc : (history ++ [entry]).length > 100
  · rw [if_pos hc]
    refine ⟨?_, ?_, ?_⟩
    · rw [List.length_drop]
      omega
    · rw [List.length_drop]
      omega
    · rw [hlen]
  · rw [if_neg hc]
    have h0 : history.length + 1 - 100 = 0 := by omega
    refine ⟨by omega, by omega, ?_⟩
    rw [h0, List.drop_zero]
